import Mathlib

/-!
Verification of the real-time voice-conversation client core.

The definitions below are shallow embeddings of the repository's audio
transport and playback code: the PCM codec and resampler
(src/frontend/src/components/Tagline.tsx pcm section, src/unnamed/part_003),
the playback engine (src/unnamed/part_006), the WebSocket service
(src/unnamed/part_000), the capture engine
(src/frontend-2/src/hooks/useAudioCapture.ts), and the App-level
streaming/interruption logic (src/frontend-2/src/types/audio.types.ts app
section, src/frontend/src/App.tsx).  Samples are modelled as exact
rationals, JS truncation and rounding as explicit floor/ceil operations,
and the event-loop callbacks as state-transition functions.
-/

/-- JS `ToInt16`-style truncation toward zero, as applied when a number is
stored into an `Int16Array` (no wrap occurs in the ranges used here). -/
def jsTrunc (q : ℚ) : ℤ :=
  if q < 0 then ⌈q⌉ else ⌊q⌋

/-- JS `Math.round`: round half toward positive infinity. -/
def jsRound (q : ℚ) : ℤ :=
  ⌊q + 1 / 2⌋

/-- `float32ToInt16` from the PCM converter utilities: clamp the sample to
[-1, 1], scale negatives by 32768 and non-negatives by 32767, and store the
result as a 16-bit integer (JS assignment truncates toward zero). -/
def float32ToInt16 (x : ℚ) : ℤ :=
  let clamped := max (-1) (min 1 x)
  jsTrunc (if clamped < 0 then clamped * 32768 else clamped * 32767)

/-- `int16ToFloat32` from the PCM converter utilities: divide negatives by
32768 and non-negatives by 32767. -/
def int16ToFloat32 (n : ℤ) : ℚ :=
  (n : ℚ) / (if n < 0 then 32768 else 32767)

/-- `resampleAudio` from the audio processing utilities: identity when the
rates match, otherwise linear interpolation at source position `i * r`
with `r = inputRate / outputRate` and output length
`Math.round(input.length / r)`. -/
def resampleAudio (input : List ℚ) (inputRate outputRate : ℕ) : List ℚ :=
  if inputRate = outputRate then input
  else
    let r : ℚ := (inputRate : ℚ) / (outputRate : ℚ)
    let outLen := (jsRound ((input.length : ℚ) / r)).toNat
    (List.range outLen).map (fun (i : ℕ) =>
      let p : ℚ := (i : ℚ) * r
      let idx := (⌊p⌋).toNat
      let frac := p - ((⌊p⌋ : ℤ) : ℚ)
      if idx + 1 < input.length then
        input.getD idx 0 * (1 - frac) + input.getD (idx + 1) 0 * frac
      else
        input.getD idx 0)

/-- Modelled from the spec: the authoritative per-index resampling formula.
For output index `i`, source position `p = i * (Ri / Ro)`, integer part
`idx = floor p`, fractional part `f = p - idx`; the output sample is
`input[idx] * (1 - f) + input[idx + 1] * f`, or `input[idx]` unchanged when
`idx + 1` exceeds the input bounds. -/
def specResampleSample (input : List ℚ) (inputRate outputRate : ℕ) (i : ℕ) : ℚ :=
  let r : ℚ := (inputRate : ℚ) / (outputRate : ℚ)
  let p : ℚ := (i : ℚ) * r
  let idx := (⌊p⌋).toNat
  let frac := p - ((⌊p⌋ : ℤ) : ℚ)
  if idx + 1 < input.length then
    input.getD idx 0 * (1 - frac) + input.getD (idx + 1) 0 * frac
  else
    input.getD idx 0

/-- Modelled from the spec: output length `round(inputLength / r)` with
`r = Ri / Ro`, i.e. `round(inputLength * Ro / Ri)`. -/
def specOutputLength (inputLength inputRate outputRate : ℕ) : ℕ :=
  (jsRound ((inputLength : ℚ) * (outputRate : ℚ) / (inputRate : ℚ))).toNat

/-- Running sum of squares used by `calculateRMS`. -/
def sumSquares (samples : List ℚ) : ℚ :=
  samples.foldl (fun acc x => acc + x * x) 0

/-- `calculateRMS` from the audio processing utilities: 0 for an empty
block, otherwise `Math.sqrt(sum / length)` clamped into [0, 1] by
`Math.min(1, Math.max(0, rms))`.  `sqrtFn` abstracts `Math.sqrt`, which is
not an exact rational operation; every claim proved about this function
holds for an arbitrary square-root implementation. -/
def calculateRMS (sqrtFn : ℚ → ℚ) (samples : List ℚ) : ℚ :=
  if samples.length = 0 then 0
  else
    let rms := sqrtFn (sumSquares samples / (samples.length : ℚ))
    min 1 (max 0 rms)

/-- `smoothAudioLevel` from the audio processing utilities: exponential
moving average with 30 percent weight on history by default. -/
def smoothAudioLevel (currentLevel previousLevel : ℚ) (smoothingFactor : ℚ := 3 / 10) : ℚ :=
  previousLevel * smoothingFactor + currentLevel * (1 - smoothingFactor)

/-- One inbound binary audio frame: 16-bit PCM payload. -/
abbrev Frame := List ℤ

/-- State of the playback hook (src/unnamed/part_006): the queue ref, the
current source node, the playing flag, the reported and smoothed levels,
plus observation fields recording which frames started rendering (in
order) and how many times the playback-end callback fired. -/
structure PlaybackState where
  audioQueue : List Frame
  currentSource : Option Frame
  isPlaying : Bool
  audioLevel : ℚ
  smoothedLevel : ℚ
  playLog : List Frame
  endCount : ℕ
  deriving DecidableEq

/-- The playback state before any frame arrives. -/
def initPlayback : PlaybackState :=
  { audioQueue := [], currentSource := none, isPlaying := false,
    audioLevel := 0, smoothedLevel := 0, playLog := [], endCount := 0 }

/-- `playAudioChunk`: start rendering one frame (source created, started,
recorded as the current source; playing flag set). -/
def playAudioChunk (f : Frame) (s : PlaybackState) : PlaybackState :=
  { s with currentSource := some f, isPlaying := true, playLog := s.playLog ++ [f] }

/-- `playNextChunk`: if the queue is empty, transition to idle, zero the
level and invoke the playback-end callback; otherwise shift the head off
the queue and render it. -/
def playNextChunk (s : PlaybackState) : PlaybackState :=
  match s.audioQueue with
  | [] =>
      { s with isPlaying := false, audioLevel := 0, smoothedLevel := 0,
               endCount := s.endCount + 1 }
  | f :: rest => playAudioChunk f { s with audioQueue := rest }

/-- `queueAudio`: push the frame onto the queue, and start playing if not
already playing. -/
def queueAudio (f : Frame) (s : PlaybackState) : PlaybackState :=
  let s1 := { s with audioQueue := s.audioQueue ++ [f] }
  if s1.isPlaying = true then s1 else playNextChunk s1

/-- The `source.onended` continuation: drop the finished source, then play
the next queued chunk immediately if one exists, otherwise transition to
idle, zero the level and invoke the playback-end callback. -/
def sourceEnded (s : PlaybackState) : PlaybackState :=
  let s1 := { s with currentSource := none }
  match s1.audioQueue with
  | [] =>
      { s1 with isPlaying := false, audioLevel := 0, smoothedLevel := 0,
                endCount := s1.endCount + 1 }
  | f :: rest => playAudioChunk f { s1 with audioQueue := rest }

/-- `stopPlayback`: stop and disconnect the current source (errors from an
already-finished source are swallowed), clear the queue, stop
visualization, and zero the playing flag and levels. -/
def stopPlayback (s : PlaybackState) : PlaybackState :=
  { s with currentSource := none, audioQueue := [], isPlaying := false,
           audioLevel := 0, smoothedLevel := 0 }

/-- `clearQueue`: empty the queue without touching the current source. -/
def clearQueue (s : PlaybackState) : PlaybackState :=
  { s with audioQueue := [] }

/-- Enqueue a list of frames in order through `queueAudio`. -/
def enqueueAll (fs : List Frame) (s : PlaybackState) : PlaybackState :=
  fs.foldl (fun t f => queueAudio f t) s

/-- Deliver `n` natural render completions. -/
def completeAll : ℕ → PlaybackState → PlaybackState
  | 0, s => s
  | n + 1, s => completeAll n (sourceEnded s)

/-- The scenario for the FIFO claim: enqueue the frames from idle, then
let every started render complete naturally. -/
def fifoRun (fs : List Frame) : PlaybackState :=
  completeAll fs.length (enqueueAll fs initPlayback)

/-- Client-to-server control message discriminants. -/
inductive ClientMsg
  | start
  | stop
  | reset
  | interrupt
  | ping
  deriving DecidableEq

/-- The `stream_status` field of an `audio_config` server message. -/
inductive StreamStatus
  | begin_stream
  | stop_stream
  deriving DecidableEq

/-- App-level state (the App component of src/frontend-2 and
src/frontend): the playback hook state, the `isStreamingRef` flag, the
`hasInterruptedRef` one-shot flag, and the log of control messages sent. -/
structure AppSt where
  playback : PlaybackState
  isStreaming : Bool
  hasInterrupted : Bool
  sent : List ClientMsg
  deriving DecidableEq

/-- `handleBinaryAudio`: an inbound binary frame is queued only while the
stream is marked active; otherwise it is dropped. -/
def handleBinaryAudio (d : Frame) (s : AppSt) : AppSt :=
  if s.isStreaming = true then { s with playback := queueAudio d s.playback } else s

/-- The `audio_config` message handler: `begin_stream` marks the inbound
stream active and clears any stale queued audio; `stop_stream` marks it
inactive. -/
def handleAudioConfig (streamStat : StreamStatus) (s : AppSt) : AppSt :=
  match streamStat with
  | .begin_stream => { s with isStreaming := true, playback := clearQueue s.playback }
  | .stop_stream => { s with isStreaming := false }

/-- The `audio_stopped` message handler: stop playback, clear the queue,
and mark the stream inactive. -/
def handleAudioStopped (s : AppSt) : AppSt :=
  { s with playback := clearQueue (stopPlayback s.playback), isStreaming := false }

/-- The interruption effect of the App component: when playback is not
active, re-arm the one-shot flag; when playback is active, the user is
speaking, and the one-shot is armed, set the flag, send one `interrupt`
control message, stop playback, clear the queue, and mark the stream
inactive; otherwise do nothing. -/
def interruptionEffect (userSpeaking : Bool) (s : AppSt) : AppSt :=
  if s.playback.isPlaying = false then
    { s with hasInterrupted := false }
  else if userSpeaking = true ∧ s.hasInterrupted = false then
    { s with hasInterrupted := true,
             sent := s.sent ++ [ClientMsg.interrupt],
             playback := clearQueue (stopPlayback s.playback),
             isStreaming := false }
  else s

/-- Run the interruption effect over a sequence of speech observations. -/
def interruptRun (us : List Bool) (s : AppSt) : AppSt :=
  us.foldl (fun t u => interruptionEffect u t) s

/-- Lifecycle phase of the underlying WebSocket transport handle. -/
inductive WSReadyState
  | connecting
  | opened
  | closed
  deriving DecidableEq

/-- One transport handle, tagged with a creation id. -/
structure WSHandle where
  id : ℕ
  readyState : WSReadyState
  deriving DecidableEq

/-- State of the `WebSocketService` (src/unnamed/part_000): the nullable
transport handle, reconnect bookkeeping, the keepalive flag, the manual
close flag, plus observation fields counting transports created, terminal
reconnect errors emitted, and the reconnect delays scheduled in order. -/
structure WSService where
  ws : Option WSHandle
  reconnectAttempts : ℕ
  reconnectTimer : Option ℕ
  pingActive : Bool
  isManualClose : Bool
  createdCount : ℕ
  terminalErrorCount : ℕ
  scheduledDelays : List ℕ
  deriving DecidableEq

/-- The fixed reconnect backoff schedule, in milliseconds. -/
def reconnectTimeouts : List ℕ := [1000, 2000, 4000, 8000, 30000]

/-- The configured maximum number of reconnect attempts. -/
def maxReconnectAttempts : ℕ := 5

/-- A `WSService` that has never connected. -/
def initialService : WSService :=
  { ws := none, reconnectAttempts := 0, reconnectTimer := none,
    pingActive := false, isManualClose := false, createdCount := 0,
    terminalErrorCount := 0, scheduledDelays := [] }

/-- Open a fresh transport: a new handle in the connecting phase. -/
def newConnection (s : WSService) : WSService :=
  { s with ws := some { id := s.createdCount, readyState := .connecting },
           isManualClose := false,
           createdCount := s.createdCount + 1 }

/-- `connect`: if the handle is already open, return the existing
connection; if a connection attempt is in flight, wait on it; otherwise
create a new transport. -/
def connect (s : WSService) : WSService :=
  match s.ws with
  | some h =>
      if h.readyState = .opened then s
      else if h.readyState = .connecting then s
      else newConnection s
  | none => newConnection s

/-- The `onopen` continuation: mark the handle open, reset the reconnect
counter to zero, and start the keepalive ping interval. -/
def handleOpen (s : WSService) : WSService :=
  { s with ws := s.ws.map (fun h => { h with readyState := .opened }),
           reconnectAttempts := 0, pingActive := true }

/-- `attemptReconnect`: once the attempt counter has reached the maximum,
emit the terminal error and schedule nothing; otherwise schedule a
reconnect timer with the delay indexed by the attempt counter (falling
back to 30000 past the end of the schedule). -/
def attemptReconnect (s : WSService) : WSService :=
  if maxReconnectAttempts ≤ s.reconnectAttempts then
    { s with terminalErrorCount := s.terminalErrorCount + 1 }
  else
    let t := reconnectTimeouts.getD s.reconnectAttempts 30000
    { s with reconnectTimer := some t, scheduledDelays := s.scheduledDelays ++ [t] }

/-- The reconnect timer callback: increment the attempt counter and call
`connect` again. -/
def reconnectTimerFire (s : WSService) : WSService :=
  connect { s with reconnectTimer := none,
                   reconnectAttempts := s.reconnectAttempts + 1 }

/-- The `onclose` continuation: stop the keepalive interval, mark the
handle closed, and attempt a reconnect unless the close was manual. -/
def handleClose (s : WSService) : WSService :=
  let s1 := { s with ws := s.ws.map (fun h => { h with readyState := .closed }),
                     pingActive := false }
  if s1.isManualClose = true then s1 else attemptReconnect s1

/-- Drive the reconnect machinery while every connection attempt fails:
each pending timer fires, the new attempt closes unexpectedly, and the
close handler runs again. -/
def runFailingReconnects : ℕ → WSService → WSService
  | 0, s => s
  | n + 1, s =>
      match s.reconnectTimer with
      | none => s
      | some _ => runFailingReconnects n (handleClose (reconnectTimerFire s))

/-- The backoff scenario: connect once, open successfully, suffer an
unexpected close, then fail every subsequent reconnect attempt. -/
def backoffScenario : WSService :=
  runFailingReconnects 10 (handleClose (handleOpen (connect initialService)))

/-- A transport handle is live while connecting or open. -/
def liveHandle (h : WSHandle) : Bool :=
  match h.readyState with
  | .connecting => true
  | .opened => true
  | .closed => false

/-- The resources the capture engine acquires, in acquisition order:
device tracks, audio context, source node, processing node, silent gain
node. -/
inductive CaptureResource
  | silentGain
  | processorNode
  | sourceNode
  | audioContext
  | mediaTracks
  deriving DecidableEq

/-- State of the capture hook (src/frontend-2/src/hooks/useAudioCapture.ts):
which resource refs are currently held, the capturing flag and levels,
plus an observation log of the order resources are released in. -/
structure CaptureState where
  mediaStream : Bool
  audioContext : Bool
  sourceNode : Bool
  processorNode : Bool
  silentGain : Bool
  isCapturing : Bool
  audioLevel : ℚ
  smoothedLevel : ℚ
  releaseLog : List CaptureResource
  deriving DecidableEq

/-- `stopCapture`: disconnect the silent gain node, disconnect the
processing node, disconnect the source node, close the audio context,
stop the media stream tracks — each only if held — then zero the
capturing flag and levels. -/
def stopCapture (s : CaptureState) : CaptureState :=
  let s1 := if s.silentGain = true then
      { s with silentGain := false, releaseLog := s.releaseLog ++ [CaptureResource.silentGain] }
    else s
  let s2 := if s1.processorNode = true then
      { s1 with processorNode := false, releaseLog := s1.releaseLog ++ [CaptureResource.processorNode] }
    else s1
  let s3 := if s2.sourceNode = true then
      { s2 with sourceNode := false, releaseLog := s2.releaseLog ++ [CaptureResource.sourceNode] }
    else s2
  let s4 := if s3.audioContext = true then
      { s3 with audioContext := false, releaseLog := s3.releaseLog ++ [CaptureResource.audioContext] }
    else s3
  let s5 := if s4.mediaStream = true then
      { s4 with mediaStream := false, releaseLog := s4.releaseLog ++ [CaptureResource.mediaTracks] }
    else s4
  { s5 with isCapturing := false, audioLevel := 0, smoothedLevel := 0 }

/-- The sequence of resources `stopCapture` releases from a given state:
the fixed release order restricted to the resources actually held. -/
def releasedSeq (s : CaptureState) : List CaptureResource :=
  (if s.silentGain = true then [CaptureResource.silentGain] else []) ++
  (if s.processorNode = true then [CaptureResource.processorNode] else []) ++
  (if s.sourceNode = true then [CaptureResource.sourceNode] else []) ++
  (if s.audioContext = true then [CaptureResource.audioContext] else []) ++
  (if s.mediaStream = true then [CaptureResource.mediaTracks] else [])

/-- A capture state holding every resource, mid-capture. -/
def fullCapture : CaptureState :=
  { mediaStream := true, audioContext := true, sourceNode := true,
    processorNode := true, silentGain := true, isCapturing := true,
    audioLevel := 0, smoothedLevel := 0, releaseLog := [] }

/-- A playback state mid-render with one pending frame, used to examine
what `stopPlayback` does to the queue. -/
def midRenderPlayback : PlaybackState :=
  { audioQueue := [[7]], currentSource := some [9], isPlaying := true,
    audioLevel := 0, smoothedLevel := 0, playLog := [[9]], endCount := 0 }

theorem sumSquares_foldl_nonneg (samples : List ℚ) (acc : ℚ) (h : 0 ≤ acc) :
    0 ≤ samples.foldl (fun a x => a + x * x) acc := by
  induction samples generalizing acc with
  | nil => simpa using h
  | cons x xs ih =>
      simpa using ih (acc + x * x) (add_nonneg h (mul_self_nonneg x))

theorem sumSquares_nonneg (samples : List ℚ) : 0 ≤ sumSquares samples :=
  sumSquares_foldl_nonneg samples 0 le_rfl

/-- Claim C1 as stated is false: `stopPlayback` does not leave the pending
frames of the Playback Queue unchanged.  At a concrete mid-render state
with one pending frame, the queue after `stopPlayback` differs from the
queue before it. -/
theorem stop_preserves_queue_false :
    ¬ ((stopPlayback midRenderPlayback).audioQueue = midRenderPlayback.audioQueue) := by
  decide

/-- Claim C1 (amended): for every state of the Playback Engine, `stop()`
halts any in-flight render immediately (errors from stopping an
already-finished render are swallowed — the operation is total) and also
empties the Playback Queue; the separate `clear()` operation empties the
queue without touching the in-flight render or the playing flag. -/
theorem stop_halts_render_and_clears_queue (s : PlaybackState) :
    (stopPlayback s).currentSource = none ∧
    (stopPlayback s).isPlaying = false ∧
    (stopPlayback s).audioQueue = [] ∧
    (stopPlayback s).audioLevel = 0 ∧
    (clearQueue s).audioQueue = [] ∧
    (clearQueue s).currentSource = s.currentSource ∧
    (clearQueue s).isPlaying = s.isPlaying := by
  simp [stopPlayback, clearQueue]

/-- Claim C10: `calculateRMS` is total and range-bounded: it returns
exactly 0 on the empty block rather than dividing by zero, the argument
passed to the square root is nonnegative, and for every block (and every
square-root implementation) the result lies in [0, 1]. -/
theorem calculateRMS_total_and_bounded (sqrtFn : ℚ → ℚ) (samples : List ℚ) :
    calculateRMS sqrtFn [] = 0 ∧
    0 ≤ sumSquares samples / (samples.length : ℚ) ∧
    0 ≤ calculateRMS sqrtFn samples ∧
    calculateRMS sqrtFn samples ≤ 1 := by
  refine ⟨by simp [calculateRMS], ?_, ?_, ?_⟩
  · exact div_nonneg (sumSquares_nonneg samples) (Nat.cast_nonneg _)
  · unfold calculateRMS
    split
    · exact le_rfl
    · exact le_min (by norm_num) (le_max_left 0 _)
  · unfold calculateRMS
    split
    · norm_num
    · exact min_le_left 1 _

theorem interruptRun_idle (us : List Bool) (t : AppSt)
    (h : t.playback.isPlaying = false) :
    (interruptRun us t).sent = t.sent ∧
    (interruptRun us t).playback.isPlaying = false := by
  induction us generalizing t with
  | nil => exact ⟨rfl, h⟩
  | cons u rest ih =>
      have hstep : interruptionEffect u t = { t with hasInterrupted := false } := by
        unfold interruptionEffect
        rw [if_pos h]
      have := ih { t with hasInterrupted := false } h
      simpa [interruptRun, hstep] using this

/-- Claim C2: whenever playback is active and the armed interruption
trigger fires, exactly one `interrupt` control message is appended to the
send log, playback is stopped, and the Playback Queue is empty
immediately afterwards; every further trigger observation after that
sends no second `interrupt` (playback is no longer active), a trigger
while playback is active but the one-shot already fired sends nothing,
and the one-shot re-arms exactly when playback is not active. -/
theorem interruption_one_shot (s : AppSt)
    (hplay : s.playback.isPlaying = true) (harm : s.hasInterrupted = false) :
    (interruptionEffect true s).sent = s.sent ++ [ClientMsg.interrupt] ∧
    (interruptionEffect true s).playback.audioQueue = [] ∧
    (interruptionEffect true s).playback.isPlaying = false ∧
    (interruptionEffect true s).hasInterrupted = true ∧
    (∀ us : List Bool,
      (interruptRun us (interruptionEffect true s)).sent = s.sent ++ [ClientMsg.interrupt]) ∧
    (∀ t : AppSt, t.playback.isPlaying = true → t.hasInterrupted = true →
      (interruptionEffect true t).sent = t.sent) ∧
    (∀ t : AppSt, t.playback.isPlaying = false →
      (interruptionEffect true t).hasInterrupted = false) := by
  have hfire : interruptionEffect true s =
      { s with hasInterrupted := true,
               sent := s.sent ++ [ClientMsg.interrupt],
               playback := clearQueue (stopPlayback s.playback),
               isStreaming := false } := by
    unfold interruptionEffect
    rw [if_neg (by simp [hplay]), if_pos ⟨rfl, harm⟩]
  refine ⟨by rw [hfire], by simp [hfire, clearQueue, stopPlayback],
    by simp [hfire, clearQueue, stopPlayback], by rw [hfire], ?_, ?_, ?_⟩
  · intro us
    have hidle : (interruptionEffect true s).playback.isPlaying = false := by
      simp [hfire, clearQueue, stopPlayback]
    have := (interruptRun_idle us (interruptionEffect true s) hidle).1
    rw [this, hfire]
  · intro t ht hi
    unfold interruptionEffect
    rw [if_neg (by simp [ht]), if_neg (by simp [hi])]
  · intro t ht
    unfold interruptionEffect
    rw [if_pos ht]

/-- Witness for the interruption one-shot theorem at a concrete playing,
armed state. -/
theorem interruption_one_shot_witness :
    (interruptionEffect true
      { playback := midRenderPlayback, isStreaming := true,
        hasInterrupted := false, sent := [] }).sent = [ClientMsg.interrupt] ∧
    (interruptionEffect true
      { playback := midRenderPlayback, isStreaming := true,
        hasInterrupted := false, sent := [] }).playback.audioQueue = [] := by
  have h := interruption_one_shot
    { playback := midRenderPlayback, isStreaming := true,
      hasInterrupted := false, sent := [] } (by decide) rfl
  exact ⟨by simpa using h.1, h.2.1⟩

/-- Claim C9: a binary audio frame arriving while the inbound stream is
not marked active is dropped — the App state, in particular the Playback
Queue and playback state, is unchanged; the stream is marked inactive by
`stop_stream`, `audio_stopped` and a fired interruption, and active by
`begin_stream`. -/
theorem inactive_binary_frame_dropped (d : Frame) (s : AppSt)
    (h : s.isStreaming = false) :
    handleBinaryAudio d s = s ∧
    (∀ t : AppSt, (handleAudioConfig StreamStatus.stop_stream t).isStreaming = false) ∧
    (∀ t : AppSt, (handleAudioStopped t).isStreaming = false) ∧
    (∀ t : AppSt, t.playback.isPlaying = true → t.hasInterrupted = false →
      (interruptionEffect true t).isStreaming = false) ∧
    (∀ t : AppSt, (handleAudioConfig StreamStatus.begin_stream t).isStreaming = true) := by
  refine ⟨?_, fun t => rfl, fun t => rfl, ?_, fun t => rfl⟩
  · unfold handleBinaryAudio
    rw [if_neg (by simp [h])]
  · intro t ht hi
    unfold interruptionEffect
    rw [if_neg (by simp [ht]), if_pos ⟨rfl, hi⟩]

/-- Witness for the inactive-frame drop theorem at a concrete non-active
state with a pending queue. -/
theorem inactive_binary_frame_dropped_witness :
    handleBinaryAudio [4]
      { playback := midRenderPlayback, isStreaming := false,
        hasInterrupted := false, sent := [] } =
      { playback := midRenderPlayback, isStreaming := false,
        hasInterrupted := false, sent := [] } :=
  (inactive_binary_frame_dropped [4]
    { playback := midRenderPlayback, isStreaming := false,
      hasInterrupted := false, sent := [] } rfl).1

theorem connect_preserves_reconnectAttempts (t : WSService) :
    (connect t).reconnectAttempts = t.reconnectAttempts := by
  cases hws : t.ws with
  | none => simp [connect, hws, newConnection]
  | some h =>
      by_cases h1 : h.readyState = WSReadyState.opened
      · simp [connect, hws, h1]
      · by_cases h2 : h.readyState = WSReadyState.connecting <;>
          simp [connect, hws, h1, h2, newConnection]

/-- Claim C3: in the failing-reconnect scenario the five reconnect timers
are scheduled with exactly the configured backoff delays in order, the
attempt counter ends at the maximum, the terminal error is emitted
exactly once, and no timer remains pending; in general, once the counter
has reached the maximum no timer is ever scheduled again, below the
maximum the scheduled delay is the one indexed by the counter (and no
terminal error is emitted), the timer callback increments the counter,
and a successful open resets the counter to zero. -/
theorem reconnect_backoff_schedule :
    backoffScenario.scheduledDelays = [1000, 2000, 4000, 8000, 30000] ∧
    backoffScenario.reconnectAttempts = maxReconnectAttempts ∧
    backoffScenario.terminalErrorCount = 1 ∧
    backoffScenario.reconnectTimer = none ∧
    (∀ s : WSService, maxReconnectAttempts ≤ s.reconnectAttempts →
      (attemptReconnect s).scheduledDelays = s.scheduledDelays ∧
      (attemptReconnect s).reconnectTimer = s.reconnectTimer ∧
      (attemptReconnect s).terminalErrorCount = s.terminalErrorCount + 1) ∧
    (∀ s : WSService, s.reconnectAttempts < maxReconnectAttempts →
      (attemptReconnect s).reconnectTimer =
        some (reconnectTimeouts.getD s.reconnectAttempts 30000) ∧
      (attemptReconnect s).scheduledDelays =
        s.scheduledDelays ++ [reconnectTimeouts.getD s.reconnectAttempts 30000] ∧
      (attemptReconnect s).terminalErrorCount = s.terminalErrorCount) ∧
    (∀ s : WSService,
      (reconnectTimerFire s).reconnectAttempts = s.reconnectAttempts + 1) ∧
    (∀ s : WSService, (handleOpen s).reconnectAttempts = 0) := by
  refine ⟨by decide, by decide, by decide, by decide, ?_, ?_, ?_, fun s => rfl⟩
  · intro s h
    unfold attemptReconnect
    rw [if_pos h]
    exact ⟨rfl, rfl, rfl⟩
  · intro s h
    unfold attemptReconnect
    rw [if_neg (by omega)]
    exact ⟨rfl, rfl, rfl⟩
  · intro s
    unfold reconnectTimerFire
    rw [connect_preserves_reconnectAttempts]

/-- Witness for the reconnect backoff theorem: past the maximum attempt
count no timer is scheduled and exactly one further terminal error is
emitted. -/
theorem reconnect_backoff_schedule_witness :
    (attemptReconnect backoffScenario).scheduledDelays =
      backoffScenario.scheduledDelays ∧
    (attemptReconnect backoffScenario).reconnectTimer = none ∧
    (attemptReconnect backoffScenario).terminalErrorCount = 2 := by
  have h := reconnect_backoff_schedule
  have h5 := h.2.2.2.2.1 backoffScenario (by decide)
  exact ⟨h5.1, by rw [h5.2.1]; decide, by rw [h5.2.2]; decide⟩

/-- Claim C7: `connect` is idempotent — while the transport handle is live
(in flight or open), `connect` returns the existing connection unchanged
and creates no second transport handle; when no handle exists a single
new transport is created; a successful open resets the reconnect counter
to zero. -/
theorem connect_idempotent (s : WSService) (h : WSHandle)
    (hws : s.ws = some h) (hlive : liveHandle h = true) :
    connect s = s ∧
    (connect s).createdCount = s.createdCount ∧
    (connect s).ws = s.ws ∧
    (∀ t : WSService, t.ws = none →
      (connect t).createdCount = t.createdCount + 1) ∧
    (∀ t : WSService, (handleOpen t).reconnectAttempts = 0) := by
  have hc : connect s = s := by
    rcases hr : h.readyState with _ | _ | _
    · simp [connect, hws, hr]
    · simp [connect, hws, hr]
    · exact absurd hlive (by simp [liveHandle, hr])
  refine ⟨hc, by rw [hc], by rw [hc], ?_, fun t => rfl⟩
  intro t ht
  unfold connect
  rw [ht]
  rfl

/-- Witness for the idempotent-connect theorem at a concrete open
connection. -/
theorem connect_idempotent_witness :
    connect (handleOpen (connect initialService)) =
      handleOpen (connect initialService) :=
  (connect_idempotent (handleOpen (connect initialService))
    { id := 0, readyState := WSReadyState.opened } (by decide) (by decide)).1

theorem enqueueAll_playing (fs : List Frame) (s : PlaybackState)
    (h : s.isPlaying = true) :
    enqueueAll fs s = { s with audioQueue := s.audioQueue ++ fs } := by
  induction fs generalizing s with
  | nil => simp [enqueueAll]
  | cons f rest ih =>
      have hq : queueAudio f s = { s with audioQueue := s.audioQueue ++ [f] } := by
        unfold queueAudio
        rw [if_pos h]
      have := ih { s with audioQueue := s.audioQueue ++ [f] } h
      simp only [enqueueAll, List.foldl_cons] at *
      rw [hq, this]
      simp

theorem completeAll_drain (q : List Frame) (s : PlaybackState)
    (hq : s.audioQueue = q) :
    completeAll (q.length + 1) s =
      { audioQueue := [], currentSource := none, isPlaying := false,
        audioLevel := 0, smoothedLevel := 0, playLog := s.playLog ++ q,
        endCount := s.endCount + 1 } := by
  induction q generalizing s with
  | nil =>
      simp [completeAll, sourceEnded, hq]
  | cons f rest ih =>
      have hstep : sourceEnded s =
          playAudioChunk f { s with currentSource := none, audioQueue := rest } := by
        simp only [sourceEnded, hq]
      have hih := ih (playAudioChunk f { s with currentSource := none, audioQueue := rest })
        (by simp [playAudioChunk])
      show completeAll (rest.length + 1 + 1) s = _
      rw [completeAll, hstep, hih]
      simp [playAudioChunk]

/-- Claim C6: enqueueing a nonempty sequence of frames into an idle
Playback Engine renders them one at a time in FIFO arrival order; each
natural completion immediately starts the next queued frame, and after
the last completion the engine is idle with a zero level and the
playback-end callback invoked exactly once; `clear()` empties the queue
without touching the in-flight render or the playing flag. -/
theorem playback_fifo_gapless (fs : List Frame) (h : fs ≠ []) :
    (fifoRun fs).playLog = fs ∧
    (fifoRun fs).audioQueue = [] ∧
    (fifoRun fs).currentSource = none ∧
    (fifoRun fs).isPlaying = false ∧
    (fifoRun fs).audioLevel = 0 ∧
    (fifoRun fs).endCount = 1 ∧
    (∀ s : PlaybackState, (clearQueue s).audioQueue = [] ∧
      (clearQueue s).currentSource = s.currentSource ∧
      (clearQueue s).isPlaying = s.isPlaying) := by
  obtain ⟨f, rest, rfl⟩ := List.exists_cons_of_ne_nil h
  have hstart : queueAudio f initPlayback =
      { audioQueue := [], currentSource := some f, isPlaying := true,
        audioLevel := 0, smoothedLevel := 0, playLog := [f], endCount := 0 } := by
    simp [queueAudio, initPlayback, playNextChunk, playAudioChunk]
  have henq : enqueueAll (f :: rest) initPlayback =
      { audioQueue := rest, currentSource := some f, isPlaying := true,
        audioLevel := 0, smoothedLevel := 0, playLog := [f], endCount := 0 } := by
    have := enqueueAll_playing rest
      { audioQueue := [], currentSource := some f, isPlaying := true,
        audioLevel := 0, smoothedLevel := 0, playLog := [f], endCount := 0 } rfl
    simp only [enqueueAll, List.foldl_cons] at *
    rw [hstart, this]
    simp
  have hdrain := completeAll_drain rest
    { audioQueue := rest, currentSource := some f, isPlaying := true,
      audioLevel := 0, smoothedLevel := 0, playLog := [f], endCount := 0 } rfl
  have hrun : fifoRun (f :: rest) =
      { audioQueue := [], currentSource := none, isPlaying := false,
        audioLevel := 0, smoothedLevel := 0, playLog := f :: rest,
        endCount := 1 } := by
    unfold fifoRun
    rw [henq]
    simpa using hdrain
  rw [hrun]
  exact ⟨rfl, rfl, rfl, rfl, rfl, rfl, fun s => ⟨rfl, rfl, rfl⟩⟩

/-- Witness for the FIFO playback theorem on two concrete frames. -/
theorem playback_fifo_gapless_witness :
    (fifoRun [[1], [2]]).playLog = [[1], [2]] ∧
    (fifoRun [[1], [2]]).endCount = 1 ∧
    (fifoRun [[1], [2]]).isPlaying = false := by
  have h := playback_fifo_gapless [[1], [2]] (by decide)
  exact ⟨h.1, h.2.2.2.2.2.1, h.2.2.2.1⟩

/-- Claim C8 as stated is false: from a fully-acquired capture state,
`stopCapture` does not release the resources in the order processing
node, source node, device tracks, audio context (with or without the
silent gain node counted first) — it closes the audio context before
stopping the device tracks. -/
theorem capture_release_order_false :
    (stopCapture fullCapture).releaseLog ≠
      [CaptureResource.processorNode, CaptureResource.sourceNode,
       CaptureResource.mediaTracks, CaptureResource.audioContext] ∧
    (stopCapture fullCapture).releaseLog ≠
      [CaptureResource.silentGain, CaptureResource.processorNode,
       CaptureResource.sourceNode, CaptureResource.mediaTracks,
       CaptureResource.audioContext] ∧
    (stopCapture fullCapture).releaseLog =
      [CaptureResource.silentGain, CaptureResource.processorNode,
       CaptureResource.sourceNode, CaptureResource.audioContext,
       CaptureResource.mediaTracks] := by
  decide

/-- Claim C8 (amended): `stopCapture` releases every held resource in
reverse-acquisition order — silent gain node, processing node, source
node, audio context, device tracks (the audio context is closed before
the device tracks are stopped) — regardless of which acquisition step was
reached, leaves no resource held, and is idempotent: calling it when
nothing is active changes nothing. -/
theorem capture_stop_release_order (s : CaptureState) :
    (stopCapture s).releaseLog = s.releaseLog ++ releasedSeq s ∧
    (stopCapture s).silentGain = false ∧
    (stopCapture s).processorNode = false ∧
    (stopCapture s).sourceNode = false ∧
    (stopCapture s).audioContext = false ∧
    (stopCapture s).mediaStream = false ∧
    (stopCapture s).isCapturing = false ∧
    (stopCapture s).audioLevel = 0 ∧
    (s.silentGain = false → s.processorNode = false → s.sourceNode = false →
      s.audioContext = false → s.mediaStream = false → s.isCapturing = false →
      s.audioLevel = 0 → s.smoothedLevel = 0 → stopCapture s = s) := by
  obtain ⟨ms, ac, sn, pn, sg, ic, al, sl, log⟩ := s
  cases sg <;> cases pn <;> cases sn <;> cases ac <;> cases ms <;>
    (simp [stopCapture, releasedSeq]
     try exact fun h1 h2 h3 => ⟨h1, h2.symm, h3.symm⟩)

/-- Witness for the amended capture-stop theorem: stopping with nothing
active is a no-op, and from the fully-acquired state the whole release
sequence is emitted. -/
theorem capture_stop_release_order_witness :
    stopCapture
      { mediaStream := false, audioContext := false, sourceNode := false,
        processorNode := false, silentGain := false, isCapturing := false,
        audioLevel := 0, smoothedLevel := 0, releaseLog := [] } =
      { mediaStream := false, audioContext := false, sourceNode := false,
        processorNode := false, silentGain := false, isCapturing := false,
        audioLevel := 0, smoothedLevel := 0, releaseLog := [] } ∧
    (stopCapture fullCapture).releaseLog = releasedSeq fullCapture := by
  constructor
  · exact (capture_stop_release_order
      { mediaStream := false, audioContext := false, sourceNode := false,
        processorNode := false, silentGain := false, isCapturing := false,
        audioLevel := 0, smoothedLevel := 0, releaseLog := [] }).2.2.2.2.2.2.2.2
      rfl rfl rfl rfl rfl rfl rfl rfl
  · have h := (capture_stop_release_order fullCapture).1
    rw [h]
    decide

theorem map_range_getD (f : ℕ → ℚ) (n i : ℕ) (h : i < n) :
    ((List.range n).map f).getD i 0 = f i := by
  rw [List.getD_eq_getElem?_getD, List.getElem?_map, List.getElem?_range h]
  rfl

/-- Claim C4: the resampler returns the input unchanged when the rates
match; otherwise the output length is `round(inputLength / r)` with
`r = Ri / Ro`, and every output sample satisfies the spec's linear
interpolation formula at source position `i * r` (taking `input[idx]`
unchanged when `idx + 1` exceeds the input bounds). -/
theorem resampleAudio_matches_spec (input : List ℚ) (inputRate outputRate : ℕ)
    (_hRi : 0 < inputRate) (_hRo : 0 < outputRate) :
    (inputRate = outputRate → resampleAudio input inputRate outputRate = input) ∧
    (inputRate ≠ outputRate →
      (resampleAudio input inputRate outputRate).length =
        specOutputLength input.length inputRate outputRate ∧
      ∀ i, i < (resampleAudio input inputRate outputRate).length →
        (resampleAudio input inputRate outputRate).getD i 0 =
          specResampleSample input inputRate outputRate i) := by
  constructor
  · intro h
    simp [resampleAudio, h]
  · intro h
    have hout : (jsRound ((input.length : ℚ) /
          ((inputRate : ℚ) / (outputRate : ℚ)))).toNat =
        specOutputLength input.length inputRate outputRate := by
      unfold specOutputLength
      rw [div_div_eq_mul_div]
    have hlen : resampleAudio input inputRate outputRate =
        (List.range (specOutputLength input.length inputRate outputRate)).map
          (fun i => specResampleSample input inputRate outputRate i) := by
      unfold resampleAudio
      rw [if_neg h]
      show (List.range (jsRound ((input.length : ℚ) /
          ((inputRate : ℚ) / (outputRate : ℚ)))).toNat).map
            (fun i => specResampleSample input inputRate outputRate i) = _
      rw [hout]
    constructor
    · rw [hlen]
      simp
    · intro i hi
      rw [hlen] at hi ⊢
      simp only [List.length_map, List.length_range] at hi
      exact map_range_getD _ _ i hi

/-- Witness for the resampler theorem: a six-sample block downsampled
from 48000 Hz to 16000 Hz has the spec's length and head sample. -/
theorem resampleAudio_matches_spec_witness :
    (48000 : ℕ) ≠ 16000 ∧
    (resampleAudio [1, 3, 5, 7, 9, 11] 48000 16000).length =
      specOutputLength 6 48000 16000 ∧
    (resampleAudio [1, 3, 5, 7, 9, 11] 48000 16000).getD 0 0 =
      specResampleSample [1, 3, 5, 7, 9, 11] 48000 16000 0 := by
  have h := (resampleAudio_matches_spec [1, 3, 5, 7, 9, 11] 48000 16000
    (by decide) (by decide)).2 (by decide)
  have hval : specOutputLength 6 48000 16000 = 2 := by
    unfold specOutputLength jsRound
    norm_num
    decide
  refine ⟨by decide, h.1, h.2 0 ?_⟩
  rw [h.1]
  simp only [List.length_cons, List.length_nil] at *
  rw [hval]
  decide

/-- Claim C5: converting a sample in [-1, 1] to 16-bit PCM and back
reconstructs it within one quantization step (1/32767). -/
theorem pcm_roundtrip (x : ℚ) (hlo : -1 ≤ x) (hhi : x ≤ 1) :
    |int16ToFloat32 (float32ToInt16 x) - x| ≤ 1 / 32767 := by
  have hclamp : max (-1 : ℚ) (min 1 x) = x := by
    rw [min_eq_right hhi, max_eq_right hlo]
  rcases lt_or_le x 0 with hx | hx
  · -- negative branch: scale by 32768, truncation toward zero is ceiling
    have hneg : x * 32768 < 0 := by nlinarith
    have hceil_le : (⌈x * 32768⌉ : ℤ) ≤ 0 := Int.ceil_le.mpr (by push_cast; linarith)
    have hle : (x * 32768 : ℚ) ≤ ⌈x * 32768⌉ := Int.le_ceil _
    have hlt : ((⌈x * 32768⌉ : ℤ) : ℚ) < x * 32768 + 1 := Int.ceil_lt_add_one _
    have hval : float32ToInt16 x = ⌈x * 32768⌉ := by
      simp only [float32ToInt16, hclamp, jsTrunc]
      rw [if_pos hx, if_pos hneg]
    rw [hval]
    rcases lt_or_eq_of_le hceil_le with hc | hc
    · -- a strictly negative code divides by 32768
      have hrecon : int16ToFloat32 ⌈x * 32768⌉ = ((⌈x * 32768⌉ : ℤ) : ℚ) / 32768 := by
        simp only [int16ToFloat32]
        rw [if_pos hc]
      rw [hrecon, abs_le]
      constructor <;> [linarith; linarith]
    · -- the code 0 divides by 32767 and reconstructs 0
      rw [hc] at hlt ⊢
      simp only [int16ToFloat32]
      rw [if_neg (by omega : ¬ (0 : ℤ) < 0)]
      push_cast at hlt ⊢
      rw [abs_le]
      constructor <;> [linarith; linarith]
  · -- nonnegative branch: scale by 32767, truncation toward zero is floor
    have hpos : ¬ (x * 32767 : ℚ) < 0 := by nlinarith
    have hfloor_nonneg : (0 : ℤ) ≤ ⌊x * 32767⌋ :=
      Int.floor_nonneg.mpr (by nlinarith)
    have hle : ((⌊x * 32767⌋ : ℤ) : ℚ) ≤ x * 32767 := Int.floor_le _
    have hlt : (x * 32767 : ℚ) < ⌊x * 32767⌋ + 1 := Int.lt_floor_add_one _
    have hval : float32ToInt16 x = ⌊x * 32767⌋ := by
      simp only [float32ToInt16, hclamp, jsTrunc]
      rw [if_neg (not_lt.mpr hx), if_neg hpos]
    rw [hval]
    have hrecon : int16ToFloat32 ⌊x * 32767⌋ = ((⌊x * 32767⌋ : ℤ) : ℚ) / 32767 := by
      simp only [int16ToFloat32]
      rw [if_neg (by omega)]
    rw [hrecon, abs_le]
    constructor <;> [linarith; linarith]

/-- Witness for the PCM round-trip theorem at the concrete sample 1/3. -/
theorem pcm_roundtrip_witness :
    -1 ≤ (1 / 3 : ℚ) ∧ (1 / 3 : ℚ) ≤ 1 ∧
    |int16ToFloat32 (float32ToInt16 (1 / 3)) - 1 / 3| ≤ 1 / 32767 :=
  ⟨by norm_num, by norm_num, pcm_roundtrip (1 / 3) (by norm_num) (by norm_num)⟩
